import Mathlib

/-!
Verification of the UPSC PYQs study tool (React/TypeScript) against its
natural-language specification.  The data model, load pipeline, facet
derivation, view filter and session state machine are shallowly embedded
from the source files:

* src/src/components/pyqs.tsx  (single-question practice component)
* src/unnamed/part_003         (variant of pyqs.tsx with an id filter)
* src/unnamed/part_001         (Quiz component, submit-all variant)
* src/unnamed/part_002         (Quiz variant with per-field escape handling)

JavaScript values that a decoded CSV cell can take under PapaParse with
dynamicTyping are modelled by `Val` (string or number); `none` at the
field level models JS null/undefined.
-/

namespace Upsc

/-- A dynamically typed CSV cell value as produced by PapaParse with
dynamicTyping: a raw string or a number.  (Numeric cells are modelled as
integers; the claims under study never depend on fractional values.) -/
inductive Val where
  | str (s : String)
  | num (n : Int)
deriving DecidableEq, Repr

/-- JS String(v) conversion for a cell value. -/
def jsStringOfVal : Val → String
  | .str s => s
  | .num n => toString n

/-- JS truthiness of a nullable cell value: null/undefined, the empty
string and the number 0 are falsy. -/
def truthyOptVal : Option Val → Bool
  | none => false
  | some (.str s) => !(s == "")
  | some (.num n) => !(n == 0)

/-- A decoded row: association list from transformed header key to cell.
A missing key models a JS undefined property; `some none` models null. -/
abbrev Row : Type := List (String × Option Val)

/-- The in-memory Question record built by the processedData map of pyqs.tsx.
Fields keep the raw (dynamically typed) cell except `year`, which the
source converts with String(row.year). -/
structure Question where
  id : Nat
  paper : Option Val
  subject : Option Val
  topic : Option Val
  year : Option String
  passage : Option Val
  question : Option Val
  option_a : Option Val
  option_b : Option Val
  option_c : Option Val
  option_d : Option Val
  correct_option : Option Val
  explanation : Option Val
  imageUrl : Option Val
deriving DecidableEq, Repr

/-- JS nullish coalescing `row.key ?? null` applied to a looked-up cell:
both an absent key (undefined) and null collapse to none. -/
def coalesceNull : Option (Option Val) → Option Val
  | some (some v) => some v
  | _ => none

/-- `row.year != null ? String(row.year) : null` from processedData. -/
def yearField : Option (Option Val) → Option String
  | some (some v) => some (jsStringOfVal v)
  | _ => none

/-- The six essential transformed keys checked on the first decoded row
(requiredTransformedKeys in pyqs.tsx). -/
def requiredTransformedKeys : List String :=
  ["question", "option_a", "option_b", "option_c", "option_d", "correct_option"]

/-- The per-key test of the validation gate:
`!(key in firstRow) || firstRow[key] === null || === undefined || === ''`. -/
def isMissingEssential (row : Row) (k : String) : Bool :=
  match List.lookup k row with
  | none => true
  | some none => true
  | some (some (.str s)) => s == ""
  | some (some (.num _)) => false

/-- The keys reported missing by the gate, in requiredTransformedKeys order. -/
def missingKeysOf (row : Row) : List String :=
  requiredTransformedKeys.filter (fun k => isMissingEssential row k)

/-- The error message built when the gate fails (pyqs.tsx). -/
def missingMessage (missing : List String) : String :=
  "CSV data is missing essential content after processing: "
    ++ String.intercalate ", " missing
    ++ ". Check CSV file and header mapping."

/-- The error message built when PapaParse reports row errors; the
per-row messages are taken as already formatted strings. -/
def parseErrorsMessage (errors : List String) : String :=
  "Error parsing CSV: " ++ String.intercalate "; " (errors.take 3) ++ "... Check console."

/-- One Question from one decoded row and its 0-based position, exactly
the object literal of processedData in pyqs.tsx. -/
def processRow (index : Nat) (row : Row) : Question :=
  { id := index + 1
  , paper := coalesceNull (List.lookup "paper" row)
  , subject := coalesceNull (List.lookup "subject" row)
  , topic := coalesceNull (List.lookup "topic" row)
  , year := yearField (List.lookup "year" row)
  , passage := coalesceNull (List.lookup "passage" row)
  , question := coalesceNull (List.lookup "question" row)
  , option_a := coalesceNull (List.lookup "option_a" row)
  , option_b := coalesceNull (List.lookup "option_b" row)
  , option_c := coalesceNull (List.lookup "option_c" row)
  , option_d := coalesceNull (List.lookup "option_d" row)
  , correct_option := coalesceNull (List.lookup "correct_option" row)
  , explanation := coalesceNull (List.lookup "explanation" row)
  , imageUrl := coalesceNull (List.lookup "imageUrl" row) }

/-- JS Array.prototype.map with the element index, as used by
`results.data.map((row, index) => ...)`. -/
def mapWithIndex (f : Nat → Row → Question) : Nat → List Row → List Question
  | _, [] => []
  | i, r :: rs => f i r :: mapWithIndex f (i + 1) rs

/-- processedData of pyqs.tsx: id generation by input order. -/
def processedData (rows : List Row) : List Question :=
  mapWithIndex processRow 0 rows

/-- Outcome of the load: the allQuestions collection together with the
csvError state variable.  All failure branches of the complete callback
leave allQuestions at the empty list it was reset to when the load began. -/
structure LoadResult where
  allQuestions : List Question
  csvError : Option String
deriving DecidableEq, Repr

/-- The complete callback of fetchAndParseCsv in pyqs.tsx, applied to the
decoder diagnostics and decoded rows: the parse-error branch, the
zero-row branch, the first-row validation gate, and the successful
construction of processedData. -/
def loadQuestions (errors : List String) (rows : List Row) : LoadResult :=
  if errors.length > 0 then
    { allQuestions := [], csvError := some (parseErrorsMessage errors) }
  else
    match rows with
    | [] => { allQuestions := [], csvError := some "CSV file is empty or has no data rows." }
    | firstRow :: _ =>
      if (missingKeysOf firstRow).length > 0 then
        { allQuestions := [], csvError := some (missingMessage (missingKeysOf firstRow)) }
      else
        { allQuestions := processedData rows, csvError := none }

/-- The Filters state of pyqs.tsx: one facet choice per classification
dimension, the empty string meaning no selection. -/
structure Filters where
  paper : String
  subject : String
  topic : String
  year : String
deriving DecidableEq, Repr

/-- The computed property assignment `[name]: value` of handleFilterChange
restricted to the four facet fields; an unrecognized name would create an
unrelated extra property and leaves these four fields unchanged. -/
def setFilterField (f : Filters) (name value : String) : Filters :=
  if name = "paper" then { f with paper := value }
  else if name = "subject" then { f with subject := value }
  else if name = "topic" then { f with topic := value }
  else if name = "year" then { f with year := value }
  else f

/-- handleFilterChange of pyqs.tsx: set the named facet, then cascade —
a paper change clears subject and topic, a subject change clears topic. -/
def handleFilterChange (name value : String) (f : Filters) : Filters :=
  let nf := setFilterField f name value
  if name = "paper" then { nf with subject := "", topic := "" }
  else if name = "subject" then { nf with topic := "" }
  else nf

/-- Strict JS equality `field === filterValue` between a nullable
dynamically typed field and a (non-empty) filter string: only a string
cell equal to the filter matches; null and numbers never do. -/
def valFieldEqStr (v : Option Val) (s : String) : Bool :=
  match v with
  | some (.str t) => t == s
  | _ => false

/-- `String(q.f || '')` of the search predicate: null and falsy cells
(empty string, the number 0) give the empty string. -/
def fieldToSearchString (v : Option Val) : String :=
  match v with
  | some (.str s) => s
  | some (.num n) => if n == 0 then "" else toString n
  | none => ""

/-- Substring test on character lists (JS String.prototype.includes). -/
def containsSub (pat : List Char) : List Char → Bool
  | [] => pat.isEmpty
  | c :: rest => pat.isPrefixOf (c :: rest) || containsSub pat rest

/-- `s.toLowerCase().includes(term)` for an already lower-cased term. -/
def jsIncludesLower (s : String) (term : String) : Bool :=
  containsSub term.data s.toLower.data

/-- The search predicate of updateDisplayedQuestions: the lower-cased
term must occur in stem, passage, one of the four options or the
explanation, absent fields read as empty. -/
def matchesSearch (term : String) (q : Question) : Bool :=
  let l := term.toLower
  jsIncludesLower (fieldToSearchString q.question) l
  || jsIncludesLower (fieldToSearchString q.passage) l
  || jsIncludesLower (fieldToSearchString q.option_a) l
  || jsIncludesLower (fieldToSearchString q.option_b) l
  || jsIncludesLower (fieldToSearchString q.option_c) l
  || jsIncludesLower (fieldToSearchString q.option_d) l
  || jsIncludesLower (fieldToSearchString q.explanation) l

/-- One facet stage of updateDisplayedQuestions: a non-empty (truthy)
selection filters by exact match on the given field, the empty selection
is a no-op. -/
def facetStep (sel : String) (fieldOf : Question → Option Val) (qs : List Question) :
    List Question :=
  if sel ≠ "" then qs.filter (fun q => valFieldEqStr (fieldOf q) sel) else qs

/-- The year stage (the year field is already a string). -/
def yearStep (sel : String) (qs : List Question) : List Question :=
  if sel ≠ "" then qs.filter (fun q => decide (q.year = some sel)) else qs

/-- The facet stage of updateDisplayedQuestions: each non-empty facet is
applied as an exact-match filter, ANDed in source order
(paper, subject, topic, year). -/
def applyFacetFilters (f : Filters) (qs : List Question) : List Question :=
  yearStep f.year
    (facetStep f.topic Question.topic
      (facetStep f.subject Question.subject
        (facetStep f.paper Question.paper qs)))

/-- The search stage of updateDisplayedQuestions (a non-empty debounced
term filters, the empty term is a no-op). -/
def applySearch (term : String) (qs : List Question) : List Question :=
  if term ≠ "" then qs.filter (matchesSearch term) else qs

/-- Facets then search, exactly the deterministic part of
updateDisplayedQuestions before the optional shuffle. -/
def filterPipeline (f : Filters) (term : String) (qs : List Question) : List Question :=
  applySearch term (applyFacetFilters f qs)

/-- Swap of two positions of a list (the destructuring swap inside
shuffleArray); out-of-range indices leave the list unchanged. -/
def listSwap (l : List Question) (i j : Nat) : List Question :=
  match l.get? i, l.get? j with
  | some x, some y => (l.set i y).set j x
  | _, _ => l

/-- The Fisher–Yates loop of shuffleArray.  `rand i` stands for the call
Math.floor(Math.random() * i) made while currentIndex = i; the modulus
records that that call always lands in [0, i). -/
def shuffleGo (rand : Nat → Nat) : Nat → List Question → List Question
  | 0, l => l
  | ci + 1, l => shuffleGo rand ci (listSwap l ci (rand (ci + 1) % (ci + 1)))

/-- shuffleArray of pyqs.tsx: copy the array, then run the swap loop from
currentIndex = length down to 0. -/
def shuffleArray (rand : Nat → Nat) (l : List Question) : List Question :=
  shuffleGo rand l.length l

/-- parseInt(s, 10): skip JS whitespace, take an optional sign and the
longest decimal digit run; none models NaN (no digits found). -/
def isJsSpace (c : Char) : Bool :=
  c == ' ' || c == '\t' || c == '\n' || c == '\r' || c == '\x0b' || c == '\x0c'

/-- Numeric value of a run of decimal digit characters. -/
def digitsToNat (cs : List Char) : Nat :=
  cs.foldl (fun a c => a * 10 + (c.toNat - '0'.toNat)) 0

/-- JS parseInt with radix 10. -/
def jsParseInt (s : String) : Option Int :=
  let cs := s.data.dropWhile isJsSpace
  match cs with
  | '-' :: rest =>
    let ds := rest.takeWhile Char.isDigit
    if ds.isEmpty then none else some (-(digitsToNat ds : Int))
  | '+' :: rest =>
    let ds := rest.takeWhile Char.isDigit
    if ds.isEmpty then none else some (digitsToNat ds : Int)
  | _ =>
    let ds := cs.takeWhile Char.isDigit
    if ds.isEmpty then none else some (digitsToNat ds : Int)

/-- The component state of pyqs.tsx that the data/session logic touches:
the loaded collection, load status, filter/search/random inputs, and the
session fields over the displayed subset. -/
structure AppState where
  allQuestions : List Question
  isLoadingCsv : Bool
  csvError : Option String
  filters : Filters
  debouncedSearchTerm : String
  isRandom : Bool
  displayedQuestions : List Question
  currentIndex : Nat
  selectedOption : Option String
  submittedIndices : Finset Nat
  jumpToInput : String

/-- updateDisplayedQuestions of pyqs.tsx: on loading/error/empty data the
view and session are reset; otherwise the collection is copied, filtered,
searched, optionally shuffled, and the session fields are reset. -/
def updateDisplayedQuestions (rand : Nat → Nat) (st : AppState) : AppState :=
  if st.isLoadingCsv ∨ st.csvError ≠ none ∨ st.allQuestions.length = 0 then
    { st with displayedQuestions := [], currentIndex := 0, selectedOption := none
            , submittedIndices := ∅, jumpToInput := "" }
  else
    let filtered := filterPipeline st.filters st.debouncedSearchTerm st.allQuestions
    let filtered := if st.isRandom then shuffleArray rand filtered else filtered
    { st with displayedQuestions := filtered, currentIndex := 0, selectedOption := none
            , submittedIndices := ∅, jumpToInput := "" }

/-- handleOptionSelect: staging a letter is ignored once the current
position is submitted. -/
def handleOptionSelect (opt : String) (st : AppState) : AppState :=
  if st.currentIndex ∈ st.submittedIndices then st
  else { st with selectedOption := some opt }

/-- handleSubmit of pyqs.tsx (per-question variant): lock the current
position when a selection exists and it is not already locked. -/
def handleSubmitPyqs (st : AppState) : AppState :=
  if st.selectedOption ≠ none ∧ st.currentIndex ∉ st.submittedIndices then
    { st with submittedIndices := insert st.currentIndex st.submittedIndices }
  else st

/-- handlePrevious: step back, clearing the staged selection. -/
def handlePrevious (st : AppState) : AppState :=
  if st.currentIndex > 0 then
    { st with currentIndex := st.currentIndex - 1, selectedOption := none }
  else st

/-- handleNext: step forward, clearing the staged selection.  (JS
length - 1 is -1 on an empty list; Nat subtraction gives 0 and the
guard is equally false there.) -/
def handleNext (st : AppState) : AppState :=
  if st.currentIndex < st.displayedQuestions.length - 1 then
    { st with currentIndex := st.currentIndex + 1, selectedOption := none }
  else st

/-- handleJumpTo: parse the input box, jump when the 1-based target is in
range, otherwise warn and clear the input box. -/
def handleJumpTo (st : AppState) : AppState :=
  match jsParseInt st.jumpToInput with
  | some n =>
    let targetIndex : Int := n - 1
    if 0 ≤ targetIndex ∧ targetIndex < (st.displayedQuestions.length : Int) then
      { st with currentIndex := targetIndex.toNat, selectedOption := none }
    else
      { st with jumpToInput := "" }
  | none => { st with jumpToInput := "" }

/-- JS Array.from(new Set(l)): distinct values, first occurrences kept. -/
def jsSetDedup : List Val → List Val
  | [] => []
  | v :: rest => v :: jsSetDedup (rest.filter (fun w => w ≠ v))
termination_by l => l.length
decreasing_by
  simp only [List.length_cons]
  have := List.length_filter_le (fun w => decide (w ≠ v)) rest
  omega

/-- One insertion step of a sort by the default JS comparison (values
compared through their string conversion). -/
def insertVal (v : Val) : List Val → List Val
  | [] => [v]
  | w :: ws =>
    if jsStringOfVal v ≤ jsStringOfVal w then v :: w :: ws else w :: insertVal v ws

/-- Array.prototype.sort() with the default comparator: elements ordered
by their string conversion. -/
def sortVals (l : List Val) : List Val := l.foldr insertVal []

/-- The derive-available-subjects effect of pyqs.tsx as a pure function
of the paper selection and the loaded collection (its loading/error
early-outs, which also yield [], are left to the caller): the distinct
truthy subject values of the questions matching the paper selection,
sorted. -/
def deriveAvailableSubjects (paperSel : String) (qs : List Question) : List Val :=
  if qs.length = 0 then []
  else if paperSel = "" then
    sortVals (jsSetDedup (((qs.map Question.subject).filter truthyOptVal).filterMap id))
  else
    sortVals (jsSetDedup
      ((((qs.filter (fun q => valFieldEqStr q.paper paperSel)).map Question.subject).filter
          truthyOptVal).filterMap id))

/-!  The Quiz component (src/unnamed/part_001, submit-all variant, and
src/unnamed/part_002, which differs by converting the backslash-n escape
in every field at upload time).  Its CSV parse runs without
dynamicTyping, so cells are plain strings. -/

/-- The QuizQuestion record of the Quiz components. -/
structure QuizQuestion where
  id : Nat
  paper : Option String
  passage : Option String
  question : Option String
  option_a : Option String
  option_b : Option String
  option_c : Option String
  option_d : Option String
  correct_option : Option String
  explanation : Option String
  subject : Option String
  topic : Option String
  year : Option String
deriving DecidableEq, Repr

/-- The Quiz component state (src/unnamed/part_001): selectedAnswers is
the JS object keyed by question index. -/
structure QuizState where
  questions : List QuizQuestion
  currentIndex : Nat
  selectedAnswers : Nat → Option String
  submitted : Bool
  score : Nat

/-- handleAnswerSelect of the Quiz: ignored once submitted, otherwise
store the letter under the current index. -/
def handleAnswerSelect (option : String) (st : QuizState) : QuizState :=
  if st.submitted then st
  else
    { st with selectedAnswers :=
        fun i => if i = st.currentIndex then some option else st.selectedAnswers i }

/-- The score computation inside handleSubmit of the Quiz:
question.correct_option?.toUpperCase() === selectedAnswers[index]?.toUpperCase().
When both sides are null/undefined the optional chains yield undefined on
both sides and the strict equality holds. -/
def computeScore (qs : List QuizQuestion) (sel : Nat → Option String) : Nat :=
  qs.enum.foldl
    (fun score iq =>
      if Option.map String.toUpper iq.2.correct_option = Option.map String.toUpper (sel iq.1)
      then score + 1 else score)
    0

/-- handleSubmit of the Quiz (submit-all variant): every position locks
at once and the score is recomputed over the whole set. -/
def handleSubmitQuiz (st : QuizState) : QuizState :=
  { st with submitted := true, score := computeScore st.questions st.selectedAnswers }

/-- The score the specification asks for: the number of positions whose
stored selected letter, upper-cased, equals the correct_option of that question upper-cased; a position with no selection or a question
with no correct_option never counts.  Written from the words of the spec, for
comparison with computeScore. -/
def specScore (qs : List QuizQuestion) (sel : Nat → Option String) : Nat :=
  qs.enum.countP
    (fun iq =>
      match sel iq.1, iq.2.correct_option with
      | some a, some c => a.toUpper == c.toUpper
      | _, _ => false)

/-- The global regex replace of the two-character backslash-n escape by a
real newline (text.replace of formatText in src/unnamed/part_003 and of
the row mapping in src/unnamed/part_002), on character lists. -/
def replBN : List Char → List Char
  | [] => []
  | [c] => [c]
  | c1 :: c2 :: rest =>
    if c1 = '\\' ∧ c2 = 'n' then '\n' :: replBN rest
    else c1 :: replBN (c2 :: rest)

/-- The same replace at the string level. -/
def jsReplaceBN (s : String) : String := ⟨replBN s.data⟩

/-- formatText of src/unnamed/part_003: falsy input (null or the empty
string) gives the empty string, otherwise every backslash-n becomes a
newline. -/
def formatText : Option String → String
  | none => ""
  | some s => if s = "" then "" else jsReplaceBN s

/-- A decoded Quiz row (PapaParse without dynamicTyping): header name to
raw string cell; an absent key models undefined. -/
abbrev RowS : Type := List (String × String)

/-- One field of the part_002 row mapping:
`row[key]?.replace(backslash-n, newline) || null` — an absent cell stays
null, a cell whose replaced text is empty collapses to null. -/
def quizField (row : RowS) (key : String) : Option String :=
  match List.lookup key row with
  | none => none
  | some s => if jsReplaceBN s = "" then none else some (jsReplaceBN s)

/-- The row mapping of handleFileUpload of src/unnamed/part_002: the
escape conversion is applied to every field, classification metadata
included. -/
def normalizeQuizRow (index : Nat) (row : RowS) : QuizQuestion :=
  { id := index + 1
  , paper := quizField row "Paper"
  , passage := quizField row "Passage"
  , question := quizField row "Question"
  , option_a := quizField row "Option A"
  , option_b := quizField row "Option B"
  , option_c := quizField row "Option C"
  , option_d := quizField row "Option D"
  , correct_option := quizField row "Correct Answer"
  , explanation := quizField row "Explanation"
  , subject := quizField row "Subject"
  , topic := quizField row "Topic"
  , year := quizField row "Year" }

/-- Whether a character list contains the two-character backslash-n
escape sequence. -/
def hasBN : List Char → Bool
  | c1 :: c2 :: rest => if c1 = '\\' ∧ c2 = 'n' then true else hasBN (c2 :: rest)
  | _ => false

/-- Join a list of segments with a fixed separator (used to state what
the global replace does: segments free of the escape, joined by it). -/
def joinWith (sep : List Char) : List (List Char) → List Char
  | [] => []
  | [p] => p
  | p :: q :: ps => p ++ sep ++ joinWith sep (q :: ps)

/-! ### Shared concrete data for witnesses and counterexamples -/

/-- A Question with no content, used to build concrete states. -/
def blankQ : Question :=
  { id := 1, paper := none, subject := none, topic := none, year := none
  , passage := none, question := none, option_a := none, option_b := none
  , option_c := none, option_d := none, correct_option := none
  , explanation := none, imageUrl := none }

/-! ### C9 -/

/-- C9: the full Question collection is never mutated after load —
recomputing the displayed set with any filters, search term and
randomize flag (shuffling included) leaves the allQuestions field, its
elements and their order, exactly as before. -/
theorem updateDisplayed_preserves_allQuestions (rand : Nat → Nat) (st : AppState) :
    (updateDisplayedQuestions rand st).allQuestions = st.allQuestions := by
  unfold updateDisplayedQuestions
  split <;> rfl

/-! ### C5 -/

/-- C5: changing (or clearing) the paper facet also clears the subject
and topic facets, and changing (or clearing) the subject facet also
clears the topic facet, so no FilterSelection produced by
handleFilterChange keeps a subject or topic selection across a paper
change. -/
theorem filter_cascade (f : Filters) (v : String) :
    (handleFilterChange "paper" v f).paper = v
    ∧ (handleFilterChange "paper" v f).subject = ""
    ∧ (handleFilterChange "paper" v f).topic = ""
    ∧ (handleFilterChange "subject" v f).subject = v
    ∧ (handleFilterChange "subject" v f).topic = "" := by
  refine ⟨?_, ?_, ?_, ?_, ?_⟩ <;> rfl

/-! ### C1 -/

/-- A question carrying content but no answer key. -/
def keylessQ : QuizQuestion :=
  { id := 1, paper := none, passage := none, question := some "Q"
  , option_a := some "a", option_b := some "b", option_c := some "c"
  , option_d := some "d", correct_option := none, explanation := none
  , subject := none, topic := none, year := none }

/-- C1 (code bug): on a displayed set holding one question whose
correct_option is null and whose position has no selected answer, the
submit-all score of the Quiz counts that position as correct (both
optional chains yield undefined and the strict equality holds), so the
computed score is 1 where the specified score is 0 — an unanswered
position, and a question with no answer key, must never count. -/
theorem quiz_score_counts_unanswered_keyless :
    computeScore [keylessQ] (fun _ => none) = 1
    ∧ specScore [keylessQ] (fun _ => none) = 0 := by
  exact ⟨rfl, rfl⟩

/-! ### C2 -/

/-- A pyqs state: two displayed questions, position 0 already submitted
with letter A staged as the selection. -/
def sessionC2 : AppState :=
  { allQuestions := [blankQ, { blankQ with id := 2 }]
  , isLoadingCsv := false, csvError := none
  , filters := { paper := "", subject := "", topic := "", year := "" }
  , debouncedSearchTerm := "", isRandom := false
  , displayedQuestions := [blankQ, { blankQ with id := 2 }]
  , currentIndex := 0, selectedOption := some "A"
  , submittedIndices := {0}, jumpToInput := "" }

/-- C2 counterexample: in the single-question pyqs component the only
stored answer is the unkeyed selectedOption, and handleNext erases it —
at a state whose submitted position 0 has letter A stored, moving to
position 1 leaves no record of the answer of the position left behind,
so the stored answer does not persist across next(). -/
theorem next_discards_answer_of_left_position :
    sessionC2.selectedOption = some "A"
    ∧ (0 : Nat) ∈ sessionC2.submittedIndices
    ∧ (handleNext sessionC2).currentIndex = 1
    ∧ (handleNext sessionC2).selectedOption = none := by
  refine ⟨rfl, by decide, ?_, ?_⟩ <;> rfl

/-- C2 (amended): in the Quiz variant the selectedAnswers mapping does
persist — selecting a letter rewrites only the entry of the current
position and leaves every other position untouched, and submitting
changes no entry at all.  (In the pyqs variant, navigation clears the
staged selectedOption and no per-position answer is stored.) -/
theorem quiz_selectedAnswers_persist (st : QuizState) (opt : String) (i : Nat)
    (h : i ≠ st.currentIndex) :
    (handleAnswerSelect opt st).selectedAnswers i = st.selectedAnswers i
    ∧ (handleSubmitQuiz st).selectedAnswers i = st.selectedAnswers i := by
  constructor
  · unfold handleAnswerSelect
    split
    · rfl
    · simp [h]
  · rfl

/-- A Quiz state with no entries stored yet. -/
def quizStateC2 : QuizState :=
  { questions := [keylessQ], currentIndex := 0
  , selectedAnswers := fun _ => none, submitted := false, score := 0 }

/-- Witness for the amended C2 at a concrete state and position. -/
theorem quiz_selectedAnswers_persist_witness :
    (1 : Nat) ≠ quizStateC2.currentIndex
    ∧ (handleAnswerSelect "A" quizStateC2).selectedAnswers 1
        = quizStateC2.selectedAnswers 1 :=
  ⟨by decide, (quiz_selectedAnswers_persist quizStateC2 "A" 1 (by decide)).1⟩

/-! ### C6 -/

/-- C6: when the jump box parses to n, jumpTo succeeds exactly for
1 ≤ n ≤ len(displayed), setting currentIndex to n - 1 and clearing the
staged selection; for every n outside that range it only clears the jump
box, leaving currentIndex, the staged selection and submittedIndices
unchanged. -/
theorem jumpTo_range (st : AppState) (n : Int)
    (h : jsParseInt st.jumpToInput = some n) :
    ((1 ≤ n ∧ n ≤ (st.displayedQuestions.length : Int)) →
      handleJumpTo st =
        { st with currentIndex := (n - 1).toNat, selectedOption := none })
    ∧ (¬(1 ≤ n ∧ n ≤ (st.displayedQuestions.length : Int)) →
      handleJumpTo st = { st with jumpToInput := "" }) := by
  unfold handleJumpTo
  rw [h]
  dsimp only
  constructor
  · intro hr
    rw [if_pos (by omega)]
  · intro hr
    rw [if_neg (by omega)]

/-- A pyqs state with two displayed questions and jump input set to 1. -/
def jumpStateC6 : AppState :=
  { allQuestions := [blankQ, { blankQ with id := 2 }]
  , isLoadingCsv := false, csvError := none
  , filters := { paper := "", subject := "", topic := "", year := "" }
  , debouncedSearchTerm := "", isRandom := false
  , displayedQuestions := [blankQ, { blankQ with id := 2 }]
  , currentIndex := 1, selectedOption := none
  , submittedIndices := ∅, jumpToInput := "1" }

/-- Witness for C6: jumpTo(1) on a two-question display sets
currentIndex to 0. -/
theorem jumpTo_range_witness :
    handleJumpTo jumpStateC6 =
      { jumpStateC6 with currentIndex := ((1 : Int) - 1).toNat, selectedOption := none } :=
  (jumpTo_range jumpStateC6 1 rfl).1 (by decide)

/-! ### C10 -/

/-- C10: handleJumpTo reads its box with parseInt, so any input whose
leading decimal-integer value n lies in [1, len(displayed)] jumps to
position n (currentIndex n - 1) even with trailing non-numeric
characters, and the box is then retained; for every input with no
in-range integer value the box is reset to the empty string. -/
theorem jumpTo_parseInt_semantics :
    (∀ (st : AppState) (n : Int), jsParseInt st.jumpToInput = some n →
      1 ≤ n → n ≤ (st.displayedQuestions.length : Int) →
      (handleJumpTo st).currentIndex = (n - 1).toNat
      ∧ (handleJumpTo st).jumpToInput = st.jumpToInput)
    ∧ (∀ st : AppState,
      (∀ n : Int, jsParseInt st.jumpToInput = some n →
        ¬(1 ≤ n ∧ n ≤ (st.displayedQuestions.length : Int))) →
      (handleJumpTo st).jumpToInput = "") := by
  constructor
  · intro st n h h1 h2
    unfold handleJumpTo
    rw [h]
    dsimp only
    rw [if_pos (by omega)]
    exact ⟨rfl, rfl⟩
  · intro st h
    unfold handleJumpTo
    cases hp : jsParseInt st.jumpToInput with
    | none => rfl
    | some n =>
      dsimp only
      rw [if_neg (by have := h n hp; omega)]

/-- A pyqs state with three displayed questions and jump input 2x. -/
def jumpStateC10a : AppState :=
  { jumpStateC6 with
      allQuestions := [blankQ, { blankQ with id := 2 }, { blankQ with id := 3 }]
    , displayedQuestions := [blankQ, { blankQ with id := 2 }, { blankQ with id := 3 }]
    , currentIndex := 0, jumpToInput := "2x" }

/-- The same state with jump input 0, which parses but is out of range. -/
def jumpStateC10b : AppState :=
  { jumpStateC10a with jumpToInput := "0" }

/-- Witness for C10: the input 2x jumps to position 2 (currentIndex 1)
on a three-question display, and the out-of-range input 0 resets the
box to the empty string. -/
theorem jumpTo_parseInt_semantics_witness :
    (handleJumpTo jumpStateC10a).currentIndex = ((2 : Int) - 1).toNat
    ∧ (handleJumpTo jumpStateC10b).jumpToInput = "" := by
  refine ⟨(jumpTo_parseInt_semantics.1 jumpStateC10a 2 rfl (by decide) (by decide)).1, ?_⟩
  refine jumpTo_parseInt_semantics.2 jumpStateC10b ?_
  intro n hn
  have h2 : (some (0 : Int)) = some n := hn
  cases h2
  decide

/-! ### C3 -/

/-- C3: with the decoder reporting no errors, the load of a non-empty
row sequence is rejected exactly when the first decoded row misses one
of the six essential keys (absent, null or empty), the error message
names exactly those keys and the collection stays empty; when the first
row carries all six, the load is accepted and builds processedData. -/
theorem firstRow_gate (firstRow : Row) (rest : List Row) :
    (missingKeysOf firstRow ≠ [] →
      loadQuestions [] (firstRow :: rest) =
        { allQuestions := [], csvError := some (missingMessage (missingKeysOf firstRow)) })
    ∧ (missingKeysOf firstRow = [] →
      loadQuestions [] (firstRow :: rest) =
        { allQuestions := processedData (firstRow :: rest), csvError := none }) := by
  constructor
  · intro h
    unfold loadQuestions
    rw [if_neg (by simp)]
    dsimp only
    rw [if_pos (by simpa using List.length_pos.mpr h)]
  · intro h
    unfold loadQuestions
    rw [if_neg (by simp)]
    dsimp only
    rw [if_neg (by simp [h])]

/-- A first row carrying only the question and option A. -/
def gateRowC3 : Row := [("question", some (.str "Q1")), ("option_a", some (.str "a"))]

/-- Witness for C3: the row above is rejected with the message naming
exactly the four keys it misses, and the collection stays empty. -/
theorem firstRow_gate_witness :
    loadQuestions [] [gateRowC3] =
      { allQuestions := [], csvError := some (missingMessage (missingKeysOf gateRowC3)) } :=
  (firstRow_gate gateRowC3 []).1 (by decide)

/-! ### C4 -/

/-- The length of a JS indexed map is the length of its input. -/
theorem mapWithIndex_length (f : Nat → Row → Question) :
    ∀ (k : Nat) (rows : List Row), (mapWithIndex f k rows).length = rows.length := by
  intro k rows
  induction rows generalizing k with
  | nil => rfl
  | cons r rs ih => simpa [mapWithIndex] using ih (k + 1)

/-- Each entry of the processed collection carries id start + i + 1. -/
theorem mapWithIndex_id :
    ∀ (rows : List Row) (k i : Nat) (hi : i < (mapWithIndex processRow k rows).length),
      ((mapWithIndex processRow k rows).get ⟨i, hi⟩).id = k + i + 1 := by
  intro rows
  induction rows with
  | nil => intro k i hi; simp [mapWithIndex] at hi
  | cons r rs ih =>
    intro k i hi
    cases i with
    | zero => rfl
    | succ j =>
      have hj : j < (mapWithIndex processRow (k + 1) rs).length := by
        simpa [mapWithIndex] using Nat.lt_of_succ_lt_succ (by simpa [mapWithIndex] using hi)
      have hrec := ih (k + 1) j hj
      simp only [mapWithIndex, List.get_cons_succ]
      rw [show k + (j + 1) + 1 = k + 1 + j + 1 by omega]
      exact hrec

/-- Each single stage of the pipeline returns a sublist of its input. -/
theorem facetStep_sublist (sel : String) (fieldOf : Question → Option Val)
    (qs : List Question) : List.Sublist (facetStep sel fieldOf qs) qs := by
  unfold facetStep
  split
  · exact List.filter_sublist qs
  · exact List.Sublist.refl qs

/-- The year stage returns a sublist of its input. -/
theorem yearStep_sublist (sel : String) (qs : List Question) :
    List.Sublist (yearStep sel qs) qs := by
  unfold yearStep
  split
  · exact List.filter_sublist qs
  · exact List.Sublist.refl qs

/-- The search stage returns a sublist of its input. -/
theorem applySearch_sublist (term : String) (qs : List Question) :
    List.Sublist (applySearch term qs) qs := by
  unfold applySearch
  split
  · exact List.filter_sublist qs
  · exact List.Sublist.refl qs

/-- The whole deterministic pipeline only selects a subsequence. -/
theorem filterPipeline_sublist (f : Filters) (term : String) (qs : List Question) :
    List.Sublist (filterPipeline f term qs) qs := by
  unfold filterPipeline applyFacetFilters
  exact ((((applySearch_sublist _ _).trans (yearStep_sublist _ _)).trans
    (facetStep_sublist _ _ _)).trans (facetStep_sublist _ _ _)).trans
    (facetStep_sublist _ _ _)

/-- C4: every accepted load of N data rows yields exactly N Question
records whose id fields are 1..N in input order, with no gaps or
repeats; the view filter never renumbers — for every filter selection
and search term it returns a subsequence of the collection. -/
theorem load_ids_dense (errors : List String) (rows : List Row) (qs : List Question)
    (h : loadQuestions errors rows = { allQuestions := qs, csvError := none }) :
    (qs.length = rows.length
      ∧ ∀ (i : Nat) (hi : i < qs.length), (qs.get ⟨i, hi⟩).id = i + 1)
    ∧ ∀ (f : Filters) (term : String), List.Sublist (filterPipeline f term qs) qs := by
  have hqs : qs = processedData rows := by
    unfold loadQuestions at h
    split at h
    · simp at h
    · split at h
      · simp at h
      next firstRow rest =>
        split at h
        · simp at h
        · simpa using (congrArg LoadResult.allQuestions h).symm
  subst hqs
  refine ⟨⟨mapWithIndex_length processRow 0 rows, ?_⟩, fun f term => filterPipeline_sublist f term _⟩
  intro i hi
  simpa using mapWithIndex_id rows 0 i hi

/-- A complete first row carrying all six essential keys. -/
def fullRowC4 : Row :=
  [("question", some (.str "Q1")), ("option_a", some (.str "a"))
  , ("option_b", some (.str "b")), ("option_c", some (.str "c"))
  , ("option_d", some (.str "d")), ("correct_option", some (.str "A"))]

/-- Witness for C4 at a concrete accepted one-row load. -/
theorem load_ids_dense_witness :
    (processedData [fullRowC4]).length = [fullRowC4].length :=
  ((load_ids_dense [] [fullRowC4] (processedData [fullRowC4]) (by decide)).1).1

/-! ### C7 -/

/-- Inserting into the sorted list is a permutation of consing. -/
theorem insertVal_perm (v : Val) : ∀ l : List Val, List.Perm (insertVal v l) (v :: l) := by
  intro l
  induction l with
  | nil => exact List.Perm.refl _
  | cons w ws ih =>
    unfold insertVal
    split
    · exact List.Perm.refl _
    · exact (List.Perm.cons w ih).trans (List.Perm.swap v w ws)

/-- The default sort permutes its input. -/
theorem sortVals_perm : ∀ l : List Val, List.Perm (sortVals l) l := by
  intro l
  induction l with
  | nil => exact List.Perm.refl _
  | cons v vs ih =>
    show List.Perm (insertVal v (sortVals vs)) _
    exact (insertVal_perm v (sortVals vs)).trans (List.Perm.cons v ih)

/-- Set-based deduplication keeps exactly the members of its input. -/
theorem jsSetDedup_mem (x : Val) : ∀ l : List Val, x ∈ jsSetDedup l ↔ x ∈ l := by
  intro l
  induction l using jsSetDedup.induct with
  | case1 => rw [jsSetDedup]
  | case2 v rest ih =>
    rw [jsSetDedup]
    by_cases hx : x = v
    · subst hx; simp
    · simp only [List.mem_cons, hx, false_or]
      rw [ih]
      simp [List.mem_filter, hx]

/-- Set-based deduplication yields a duplicate-free list. -/
theorem jsSetDedup_nodup : ∀ l : List Val, (jsSetDedup l).Nodup := by
  intro l
  induction l using jsSetDedup.induct with
  | case1 => rw [jsSetDedup]; exact List.nodup_nil
  | case2 v rest ih =>
    rw [jsSetDedup]
    refine List.nodup_cons.mpr ⟨?_, ih⟩
    intro hmem
    have hv := (jsSetDedup_mem v _).mp hmem
    simp [List.mem_filter] at hv

/-- Membership in the collected truthy subject values of a question
list. -/
theorem collect_subjects_mem (v : Val) (base : List Question) :
    v ∈ ((base.map Question.subject).filter truthyOptVal).filterMap id ↔
      (truthyOptVal (some v) = true ∧ ∃ q, q ∈ base ∧ q.subject = some v) := by
  simp only [List.mem_filterMap, id_eq, List.mem_filter, List.mem_map]
  constructor
  · rintro ⟨a, ⟨⟨q, hq, hqa⟩, ha⟩, rfl⟩
    exact ⟨ha, q, hq, hqa⟩
  · rintro ⟨hv, q, hq, hs⟩
    exact ⟨some v, ⟨⟨q, hq, hs⟩, hv⟩, rfl⟩

/-- Membership in the derived subject candidates: exactly the truthy
subject values of the questions matching the paper selection. -/
theorem mem_deriveAvailableSubjects (p : String) (qs : List Question) (v : Val) :
    v ∈ deriveAvailableSubjects p qs ↔
      (truthyOptVal (some v) = true
        ∧ ∃ q, q ∈ qs ∧ (p = "" ∨ valFieldEqStr q.paper p = true) ∧ q.subject = some v) := by
  unfold deriveAvailableSubjects
  by_cases h0 : qs.length = 0
  · rw [if_pos h0]
    have hnil : qs = [] := List.length_eq_zero.mp h0
    subst hnil
    simp
  · rw [if_neg h0]
    by_cases hp : p = ""
    · rw [if_pos hp]
      rw [(sortVals_perm _).mem_iff, jsSetDedup_mem, collect_subjects_mem]
      subst hp
      simp
    · rw [if_neg hp]
      rw [(sortVals_perm _).mem_iff, jsSetDedup_mem, collect_subjects_mem]
      constructor
      · rintro ⟨hv, q, hq, hs⟩
        have hmf := List.mem_filter.mp hq
        refine ⟨hv, q, hmf.1, Or.inr ?_, hs⟩
        simpa using hmf.2
      · rintro ⟨hv, q, hq, hor, hs⟩
        rcases hor with h | h
        · exact absurd h hp
        · exact ⟨hv, q, List.mem_filter.mpr ⟨hq, by simpa using h⟩, hs⟩

/-- C7: for every collection and paper value, the subject candidate set
derived with that paper selected is contained in the one derived with no
paper selected, and each candidate list is exactly (and without
duplicates) the set of distinct truthy subject values of the questions
matching the paper selection — of all questions when none is selected. -/
theorem availableSubjects_facet (p : String) (qs : List Question) (v : Val) :
    (v ∈ deriveAvailableSubjects p qs ↔
      (truthyOptVal (some v) = true
        ∧ ∃ q, q ∈ qs ∧ (p = "" ∨ valFieldEqStr q.paper p = true) ∧ q.subject = some v))
    ∧ (v ∈ deriveAvailableSubjects p qs → v ∈ deriveAvailableSubjects "" qs)
    ∧ (deriveAvailableSubjects p qs).Nodup := by
  refine ⟨mem_deriveAvailableSubjects p qs v, ?_, ?_⟩
  · intro hv
    have h := (mem_deriveAvailableSubjects p qs v).mp hv
    obtain ⟨q, hq, _, hs⟩ := h.2
    exact (mem_deriveAvailableSubjects "" qs v).mpr ⟨h.1, q, hq, Or.inl rfl, hs⟩
  · unfold deriveAvailableSubjects
    by_cases h0 : qs.length = 0
    · rw [if_pos h0]; exact List.nodup_nil
    · rw [if_neg h0]
      split
      · exact (sortVals_perm _).nodup_iff.mpr (jsSetDedup_nodup _)
      · exact (sortVals_perm _).nodup_iff.mpr (jsSetDedup_nodup _)

/-- A question classified under paper P1 and subject S1. -/
def subjQ : Question := { blankQ with paper := some (.str "P1"), subject := some (.str "S1") }

/-- Witness for C7: with paper P1 selected, S1 is a candidate, and it is
therefore also a candidate with no paper selected. -/
theorem availableSubjects_facet_witness :
    Val.str "S1" ∈ deriveAvailableSubjects "" [subjQ] :=
  (availableSubjects_facet "P1" [subjQ] (Val.str "S1")).2.1
    ((availableSubjects_facet "P1" [subjQ] (Val.str "S1")).1.mpr
      ⟨by decide, subjQ, List.mem_singleton.mpr rfl, Or.inr (by decide), rfl⟩)

/-! ### C8 -/

/-- A text free of the escape passes through the replace unchanged. -/
theorem replBN_of_no_escape : ∀ p : List Char, hasBN p = false → replBN p = p := by
  intro p
  induction p with
  | nil => intro _; rfl
  | cons c tail ih =>
    intro h
    cases tail with
    | nil => rfl
    | cons c2 rest =>
      rw [hasBN] at h
      have hc : ¬(c = '\\' ∧ c2 = 'n') := by
        intro hcc
        rw [if_pos hcc] at h
        exact Bool.noConfusion h
      rw [if_neg hc] at h
      rw [replBN, if_neg hc, ih h]

/-- The replace turns the first escape after an escape-free chunk into a
newline and continues behind it. -/
theorem replBN_append_escape :
    ∀ (p rest : List Char), hasBN p = false →
      replBN (p ++ '\\' :: 'n' :: rest) = p ++ '\n' :: replBN rest := by
  intro p
  induction p with
  | nil =>
    intro rest _
    rw [List.nil_append, List.nil_append, replBN, if_pos ⟨rfl, rfl⟩]
  | cons c tail ih =>
    intro rest h
    cases tail with
    | nil =>
      show replBN (c :: '\\' :: 'n' :: rest) = c :: '\n' :: replBN rest
      rw [replBN, if_neg (by rintro ⟨-, hbad⟩; simp at hbad),
        replBN, if_pos ⟨rfl, rfl⟩]
    | cons c2 t2 =>
      rw [hasBN] at h
      have hc : ¬(c = '\\' ∧ c2 = 'n') := by
        intro hcc
        rw [if_pos hcc] at h
        exact Bool.noConfusion h
      rw [if_neg hc] at h
      show replBN (c :: (c2 :: t2 ++ '\\' :: 'n' :: rest)) = c :: (c2 :: t2 ++ '\n' :: replBN rest)
      rw [List.cons_append, replBN, if_neg hc]
      rw [← List.cons_append, ih rest h]

/-- C8 (amended): the replace applied by the row mapping of part_002 and
by formatText of part_003 converts every two-character backslash-n
escape into a real newline — any text written as escape-free segments
joined by the escape maps to the same segments joined by a newline —
as a pure per-field transform; in part_002 it is applied to every field
of the row, classification metadata included, not only to the free-text
fields. -/
theorem replBN_converts_each_escape :
    ∀ parts : List (List Char), (∀ q ∈ parts, hasBN q = false) →
      replBN (joinWith ['\\', 'n'] parts) = joinWith ['\n'] parts := by
  intro parts
  induction parts with
  | nil => intro _; rfl
  | cons p ps ih =>
    intro h
    cases ps with
    | nil => exact replBN_of_no_escape p (h p (by simp))
    | cons q qs =>
      have h1 : hasBN p = false := h p (by simp)
      have h2 : ∀ r ∈ q :: qs, hasBN r = false := fun r hr => h r (by simp [hr])
      show replBN (p ++ ['\\', 'n'] ++ joinWith ['\\', 'n'] (q :: qs))
          = p ++ ['\n'] ++ joinWith ['\n'] (q :: qs)
      rw [List.append_assoc, List.append_assoc]
      show replBN (p ++ '\\' :: 'n' :: joinWith ['\\', 'n'] (q :: qs))
          = p ++ '\n' :: joinWith ['\n'] (q :: qs)
      rw [replBN_append_escape p _ h1, ih h2]

/-- Witness for the amended C8 on two concrete escape-free segments. -/
theorem replBN_converts_each_escape_witness :
    replBN (joinWith ['\\', 'n'] [['a'], ['b']]) = joinWith ['\n'] [['a'], ['b']] :=
  replBN_converts_each_escape [['a'], ['b']] (by decide)

/-- C8 counterexample: the upload-time row mapping of part_002 applies
the escape conversion to the Subject column — a classification field,
not a free-text field — so the conversion is not applied only to the
free-text fields. -/
theorem quizRow_converts_subject_field :
    (normalizeQuizRow 0 [("Subject", "His\\ntory")]).subject = some "His\ntory"
    ∧ some "His\ntory" ≠ some "His\\ntory" := by
  exact ⟨by decide, by decide⟩

end Upsc
